import Mathlib

/-!
Shallow embedding of the desplega.ai GitHub action's trigger-and-stream
client (`src/main.ts`): the exponential-backoff retrier, the version probe,
the trigger client with its retryability predicate, and the SSE stream
consumer, together with theorems checking the natural-language specification
against this embedding.

JavaScript strings are modelled as Lean `String`; the JS string operations
used by the source (`split`, `trim`, `startsWith`, `substring`, `includes`,
regex match of `Failed to trigger action: (\d+)`) are re-implemented
structurally over the underlying character list so that every definition
evaluates by kernel reduction.  External effects (HTTP responses, stream
chunks, `JSON.parse`) are inputs to the model; the report sink
(`core.setOutput` / `core.setFailed` / `core.warning`) is modelled as
accumulated lists of outputs, failure signals and warnings.
-/

namespace DesplegaAction

/-- A thrown JavaScript value: an `Error` carrying a message, or any
non-`Error` thrown value. -/
inductive JsError where
  | mk (message : String)
  | nonError
deriving DecidableEq, Repr

/-! ## JS string primitives (structural re-implementations) -/

/-- Fuel-driven worker for `jsSplit`: splits a character list on each
left-to-right non-overlapping occurrence of `sep`, as JS
`String.prototype.split` does for a non-empty string separator. -/
def splitSeqAux (sep : List Char) : Nat → List Char → List (List Char)
  | _, [] => [[]]
  | 0, l => [l]
  | fuel + 1, c :: cs =>
    if sep.isPrefixOf (c :: cs) then
      [] :: splitSeqAux sep fuel ((c :: cs).drop sep.length)
    else
      match splitSeqAux sep fuel cs with
      | [] => [[c]]
      | p :: ps => (c :: p) :: ps

/-- JS `s.split(sep)` for a non-empty string separator. -/
def jsSplit (s sep : String) : List String :=
  (splitSeqAux sep.data (s.data.length + 1) s.data).map (fun l => String.mk l)

/-- JS whitespace test for the characters relevant to `trim`. -/
def jsIsWS (c : Char) : Bool :=
  c == ' ' || c == '\t' || c == '\r' || c == '\n'

/-- JS `s.trim()`. -/
def jsTrim (s : String) : String :=
  String.mk (((s.data.dropWhile jsIsWS).reverse.dropWhile jsIsWS).reverse)

/-- JS `s.startsWith(pre)`. -/
def jsStartsWith (pre s : String) : Bool :=
  pre.data.isPrefixOf s.data

/-- JS `s.substring(n)` (drop the first `n` characters). -/
def jsDrop (s : String) (n : Nat) : String :=
  String.mk (s.data.drop n)

/-- JS falsiness test for a string (`!s` is true exactly on the empty
string). -/
def strIsEmpty (s : String) : Bool :=
  s.data.isEmpty

/-- Whether `pat` occurs as a contiguous substring, JS `s.includes(pat)`. -/
def hasInfix (pat : List Char) : List Char → Bool
  | [] => pat.isEmpty
  | c :: cs => pat.isPrefixOf (c :: cs) || hasInfix pat cs

/-! ## Backoff Retrier (`retryWithBackoff`, part_001 lines 50-76) -/

/-- Observable result of a guarded call: the final outcome, how many times
the operation ran, and the sleep durations (in ms) between attempts. -/
structure RetryResult (ε τ : Type) where
  result : Except ε τ
  attemptsMade : Nat
  delaysMs : List Nat
deriving Repr

/-- Worker for `retryWithBackoff`: `attempt` is the current 0-based attempt
index, `remaining` the number of attempts still allowed after this one
(`remaining = maxRetries - attempt`).  Mirrors the source loop: run the
operation; on success return; on failure, if this was the last allowed
attempt or the failure is not retryable, propagate it; otherwise sleep
`2 ^ attempt * 1000` ms and retry. -/
def retryAux {ε τ : Type} (fn : Nat → Except ε τ) (retryable : ε → Bool) :
    Nat → Nat → RetryResult ε τ
  | attempt, remaining =>
    match fn attempt with
    | .ok t => ⟨.ok t, 1, []⟩
    | .error e =>
      match remaining with
      | 0 => ⟨.error e, 1, []⟩
      | r + 1 =>
        if retryable e then
          let rest := retryAux fn retryable (attempt + 1) r
          ⟨rest.result, rest.attemptsMade + 1, (2 ^ attempt * 1000) :: rest.delaysMs⟩
        else ⟨.error e, 1, []⟩

/-- `retryWithBackoff(fn, maxRetries, retryableErrorCheck)` from the source:
attempt `fn` up to `maxRetries + 1` times with exponential backoff.  The
`i`-th call of `fn` models the `i`-th attempt's outcome. -/
def retryWithBackoff {ε τ : Type} (fn : Nat → Except ε τ) (maxRetries : Nat)
    (retryable : ε → Bool) : RetryResult ε τ :=
  retryAux fn retryable 0 maxRetries

/-! ## SSE Stream Consumer (`connectToSSE`, part_001 lines 83-195) -/

/-- The decoded JSON payload of an SSE frame, as far as the consumer reads
it: only the `status` field is inspected for control flow; `none` models a
payload whose `status` property is absent (`undefined`). -/
structure JsonEvent where
  status : Option String
deriving DecidableEq, Repr

/-- JS `['a','b'].includes(status)` where `status` may be `undefined`:
`undefined` is never an element of a string array. -/
def statusIncluded (l : List String) (st : Option String) : Bool :=
  match st with
  | some s => l.contains s
  | none => false

/-- JS template-literal interpolation of the `status` value: `undefined`
prints as the string `undefined`. -/
def statusText : Option String → String
  | some s => s
  | none => "undefined"

/-- The trimmed text after `data:` of the first frame line starting with
`data:`, if any (source lines 121-125). -/
def frameData (line : String) : Option String :=
  ((jsSplit line "\n").find? (fun l => jsStartsWith "data:" l)).map
    (fun l => jsTrim (jsDrop l 5))

/-- The trimmed text after `event:` of the first frame line starting with
`event:`, if any (source lines 127-131). -/
def frameEventType (line : String) : Option String :=
  ((jsSplit line "\n").find? (fun l => jsStartsWith "event:" l)).map
    (fun l => jsTrim (jsDrop l 6))

/-- What the consumer does with one frame of the stream. -/
inductive FrameOutcome where
  | next
  | warned (payload : String)
  | terminal (status : Option String) (failed : Bool)
deriving DecidableEq, Repr

/-- One iteration of the frame loop (source lines 117-176).  `parse` models
`JSON.parse` followed by the `event.status` read: `none` is a decode
failure (or a decoded value on which the field reads throw), `some ev` a
decoded payload. -/
def frameOutcome (parse : String → Option JsonEvent) (line : String) :
    FrameOutcome :=
  if strIsEmpty (jsTrim line) then .next
  else
    match frameData line with
    | none => .next
    | some d =>
      if strIsEmpty d then .next
      else
        match parse d with
        | none => .warned d
        | some ev =>
          if frameEventType line ≠ some "test_suite_run.event" then .next
          else if statusIncluded ["pending", "running"] ev.status then .next
          else .terminal ev.status (!statusIncluded ["passed", "flaky"] ev.status)

/-- The report-sink state accumulated by the consumer: `setOutput` pairs
(value kept as the raw, possibly `undefined`, status), `setFailed`
messages, and `warning` messages. -/
structure SseState where
  outputs : List (String × Option String)
  failures : List String
  warnings : List String
deriving DecidableEq, Repr

/-- Effect of one frame outcome on the sink state; the `Bool` reports
whether the consumer executed `return` (stop reading). -/
def applyFrame (st : SseState) : FrameOutcome → SseState × Bool
  | .next => (st, false)
  | .warned d =>
    ({ st with warnings := st.warnings ++ ["Failed to parse event data: " ++ d] },
      false)
  | .terminal s failed =>
    let st1 := { st with outputs := st.outputs ++ [("status", s)] }
    if failed then
      ({ st1 with
          failures := st1.failures ++
            ["Test suite execution failed with status: " ++ statusText s] },
        true)
    else (st1, true)

/-- The `for (const line of lines)` loop over one read's frames, stopping
at the first frame that executes `return`. -/
def processFrames (parse : String → Option JsonEvent) :
    SseState → List String → SseState × Bool
  | st, [] => (st, false)
  | st, f :: fs =>
    let p := applyFrame st (frameOutcome parse f)
    if p.2 then (p.1, true) else processFrames parse p.1 fs

/-- One observable event of `reader.read()`: a decoded text chunk, an
`AbortError` rejection, or any other rejection with a message. -/
inductive ReadEvent where
  | chunk (s : String)
  | abortErr
  | readErr (msg : String)
deriving DecidableEq, Repr

/-- How the streaming loop ended: normal exit (end-of-stream or an early
`return`), a swallowed `AbortError`, or a rethrown read error. -/
inductive LoopExit where
  | finished
  | aborted
  | failed (msg : String)
deriving DecidableEq, Repr

/-- Trace of one read iteration: the accumulation buffer's content when the
read's chunk arrived, and the frame list the buffer was split into. -/
structure ReadTrace where
  bufferAtStart : String
  frames : List String
deriving DecidableEq, Repr

/-- The `while (true)` read loop (source lines 105-177): append the chunk
to the buffer, split the buffer on the double-newline delimiter, reset the
buffer to empty, process the frames; stop on end-of-stream, early
`return`, or a reader rejection. -/
def streamLoop (parse : String → Option JsonEvent) :
    List ReadEvent → String → SseState → List ReadTrace × SseState × LoopExit
  | [], _, st => ([], st, .finished)
  | .abortErr :: _, _, st => ([], st, .aborted)
  | .readErr m :: _, _, st => ([], st, .failed m)
  | .chunk c :: rest, buf, st =>
    let frames := jsSplit (buf ++ c) "\n\n"
    let p := processFrames parse st frames
    if p.2 then ([⟨buf, frames⟩], p.1, .finished)
    else
      let q := streamLoop parse rest "" p.1
      (⟨buf, frames⟩ :: q.1, q.2.1, q.2.2)

/-- The connection attempt as seen by `connectToSSE`: `ok` and `hasBody`
model `response.ok` and the presence of `response.body`, `status` the HTTP
status code, `events` the subsequent reader behavior. -/
structure ConnectInput where
  ok : Bool
  hasBody : Bool
  status : Nat
  events : List ReadEvent

/-- Observable result of `connectToSSE`: the sink state, the per-read
traces, and how many times `abortController.abort()` and
`reader.releaseLock()` ran. -/
structure ConnectResult where
  state : SseState
  traces : List ReadTrace
  abortCount : Nat
  releaseCount : Nat
deriving DecidableEq, Repr

/-- `connectToSSE` (source lines 83-195).  A non-ok response or absent body
throws before the reader exists, so the inner `finally` (release + abort)
never runs on that path; the outer catch converts the throw into a single
`setFailed`.  Once the reader is obtained, the `finally` releases it and
aborts the controller on every exit; an `AbortError` is swallowed, any
other read error is rethrown into the outer catch. -/
def connectToSSE (parse : String → Option JsonEvent) (input : ConnectInput) :
    ConnectResult :=
  if !input.ok || !input.hasBody then
    { state :=
        { outputs := [],
          failures := ["SSE connection error: Failed to connect to SSE endpoint: "
            ++ toString input.status],
          warnings := [] },
      traces := [], abortCount := 0, releaseCount := 0 }
  else
    let r := streamLoop parse input.events "" ⟨[], [], []⟩
    match r.2.2 with
    | .failed m =>
      { state :=
          { r.2.1 with failures := r.2.1.failures ++ ["SSE connection error: " ++ m] },
        traces := r.1, abortCount := 1, releaseCount := 1 }
    | _ => { state := r.2.1, traces := r.1, abortCount := 1, releaseCount := 1 }

/-! ## Trigger Client and retryability predicate (part_001 lines 262-312) -/

/-- The maximal leading run of decimal digits of a character list (the
`\d+` capture of the source's regex, anchored at the current position). -/
def leadingDigits : List Char → List Char
  | [] => []
  | c :: cs => if c.isDigit then c :: leadingDigits cs else []

/-- Value of an all-digit character list read in base 10 (JS `parseInt`
on the regex capture). -/
def digitsVal (ds : List Char) : Nat :=
  ds.foldl (fun n c => n * 10 + (c.toNat - 48)) 0

/-- The literal part of the regex `/Failed to trigger action: (\d+)/`. -/
def triggerPattern : List Char := "Failed to trigger action: ".toList

/-- The substring `'fetch'` that `shouldRetry` looks for in a message. -/
def fetchPattern : List Char := "fetch".toList

/-- First match of `/Failed to trigger action: (\d+)/` against a message:
scan left to right for an occurrence of the literal pattern followed by at
least one digit, and return the value of the digit capture. -/
def scanStatus : List Char → Option Nat
  | [] => none
  | c :: cs =>
    if triggerPattern.isPrefixOf (c :: cs) then
      let ds := leadingDigits ((c :: cs).drop triggerPattern.length)
      if ds.isEmpty then scanStatus cs else some (digitsVal ds)
    else scanStatus cs

/-- `shouldRetry` (source lines 263-280): an `Error` is retryable when its
message contains the substring `fetch` (network-level fetch failures), or
when the message embeds `Failed to trigger action: <status>` with
`500 ≤ status < 600`; anything else (including non-`Error` throws) is not
retried. -/
def shouldRetry : JsError → Bool
  | .nonError => false
  | .mk msg =>
    if hasInfix fetchPattern msg.data then true
    else
      match scanStatus msg.data with
      | some status => decide (500 ≤ status ∧ status < 600)
      | none => false

/-- One HTTP response of the trigger endpoint: `ok`/`status`/`bodyText`
model the fetch response, `runId` the `run_id` field of the parsed JSON
body (`none` = absent). -/
structure TriggerResponse where
  ok : Bool
  status : Nat
  bodyText : String
  runId : Option String
deriving Repr

/-- The failure message a non-2xx trigger response produces. -/
def triggerMsg (status : Nat) (bodyText : String) : String :=
  "Failed to trigger action: " ++ toString status ++ " " ++ bodyText

/-- `triggerAction` (source lines 283-301): throw the formatted message on
a non-ok response, otherwise return the parsed body's `run_id`. -/
def triggerAction (resp : TriggerResponse) : Except JsError (Option String) :=
  if !resp.ok then .error (.mk (triggerMsg resp.status resp.bodyText))
  else .ok resp.runId

/-! ## Version Probe (part_001 lines 230-254) -/

/-- One observable attempt of `fetch(versionUrl)`: a network rejection, or
a response with its `ok` flag, status, and optional `version` field of the
parsed JSON body. -/
inductive VersionAttempt where
  | netErr (msg : String)
  | resp (ok : Bool) (status : Nat) (version : Option String)
deriving Repr

/-- `fetchVersion` (source lines 233-240): throw on a rejected fetch or a
non-ok response, otherwise produce `data?.version ?? 'unknown'`. -/
def fetchVersion : VersionAttempt → Except JsError String
  | .netErr m => .error (.mk m)
  | .resp false s _ => .error (.mk ("Version endpoint returned " ++ toString s))
  | .resp true _ v => .ok (v.getD "unknown")

/-- HTTP method of the version probe: `fetch(versionUrl)` with no init
object defaults to `GET`. -/
def versionRequestMethod : String := "GET"

/-- Headers of the version probe request: `fetch(versionUrl)` passes none
(in particular no `X-Api-Key`). -/
def versionRequestHeaders : List (String × String) := []

/-! ## Orchestrator (`run`, part_001 lines 201-331) -/

/-- The message `run`'s outer catch reports for a thrown value. -/
def errMessage : JsError → String
  | .mk m => m
  | .nonError => "An unknown error occurred"

/-- The external world as `run` observes it: per-attempt version and
trigger responses, the configured `maxRetries`, the SSE connection, and
the JSON decoder. -/
structure RunEnv where
  versionAttempts : Nat → VersionAttempt
  triggerAttempts : Nat → TriggerResponse
  maxRetries : Nat
  sse : ConnectInput
  parse : String → Option JsonEvent

/-- Observable result of one `run`: sink outputs (`version`, `runId`, the
`status` values set by the consumer), warnings, failure signals, attempt
counts, and the consumer's resource counters. -/
structure RunResult where
  versionOutput : Option String
  runIdOutput : Option String
  statusOutputs : List (Option String)
  warnings : List String
  failures : List String
  versionCalls : Nat
  triggerCalls : Nat
  sseStarted : Bool
  abortCount : Nat
  releaseCount : Nat
deriving Repr

/-- The values the consumer wrote under the `status` output key. -/
def statusOutputsOf (st : SseState) : List (Option String) :=
  (st.outputs.filter (fun o => o.1 == "status")).map (fun o => o.2)

/-- The version-probe stage of `run` (source lines 242-246): the retrier
around `fetchVersion` with a budget of 3 retries and an always-true
retryability predicate. -/
def runVersion (env : RunEnv) : RetryResult JsError String :=
  retryWithBackoff (fun i => fetchVersion (env.versionAttempts i)) 3
    (fun _ => true)

/-- The `version` output `run` reports: the probe's value on success,
nothing on final failure. -/
def versionOutputOf (r : Except JsError String) : Option String :=
  match r with | .ok v => some v | .error _ => none

/-- The warning `run` logs when the version probe fails after its retries
(source lines 250-254). -/
def versionWarningsOf (r : Except JsError String) : List String :=
  match r with
  | .ok _ => []
  | .error (.mk m) => ["Failed to fetch version after retries: " ++ m]
  | .error .nonError => ["Failed to fetch version after retries: unknown error"]

/-- The trigger stage of `run` (source lines 304-307): the retrier around
`triggerAction` with the caller's budget and `shouldRetry` when
`maxRetries > 0`, else a single direct call. -/
def runTrigger (env : RunEnv) : RetryResult JsError (Option String) :=
  if env.maxRetries > 0 then
    retryWithBackoff (fun i => triggerAction (env.triggerAttempts i))
      env.maxRetries shouldRetry
  else ⟨triggerAction (env.triggerAttempts 0), 1, []⟩

/-- `run` (source lines 201-331): version probe wrapped in the retrier with
budget 3 and an always-true predicate, failure demoted to a warning;
trigger wrapped in the retrier with `shouldRetry` when `maxRetries > 0`,
else a single direct call; a falsy `run_id` throws after the retry wrapper
returns; then the SSE consumer runs and `run` completes. -/
def run (env : RunEnv) : RunResult :=
  let vr := runVersion env
  let versionOutput := versionOutputOf vr.result
  let vwarn := versionWarningsOf vr.result
  let tr := runTrigger env
  match tr.result with
  | .error e =>
    { versionOutput, runIdOutput := none, statusOutputs := [],
      warnings := vwarn, failures := [errMessage e],
      versionCalls := vr.attemptsMade, triggerCalls := tr.attemptsMade,
      sseStarted := false, abortCount := 0, releaseCount := 0 }
  | .ok rid =>
    if strIsEmpty (rid.getD "") then
      { versionOutput, runIdOutput := none, statusOutputs := [],
        warnings := vwarn,
        failures := ["No run ID received from the trigger endpoint"],
        versionCalls := vr.attemptsMade, triggerCalls := tr.attemptsMade,
        sseStarted := false, abortCount := 0, releaseCount := 0 }
    else
      let c := connectToSSE env.parse env.sse
      { versionOutput, runIdOutput := rid,
        statusOutputs := statusOutputsOf c.state,
        warnings := vwarn ++ c.state.warnings,
        failures := c.state.failures,
        versionCalls := vr.attemptsMade, triggerCalls := tr.attemptsMade,
        sseStarted := true, abortCount := c.abortCount,
        releaseCount := c.releaseCount }

/-! ## Helper lemmas about the retrier -/

theorem retryAux_ok_first {ε τ : Type} (fn : Nat → Except ε τ) (p : ε → Bool)
    (a r : Nat) {t : τ} (h : fn a = .ok t) :
    retryAux fn p a r = ⟨.ok t, 1, []⟩ := by
  rw [retryAux.eq_def]
  simp only [h]

theorem retryAux_err_zero {ε τ : Type} (fn : Nat → Except ε τ) (p : ε → Bool)
    (a : Nat) {e : ε} (h : fn a = .error e) :
    retryAux fn p a 0 = ⟨.error e, 1, []⟩ := by
  rw [retryAux.eq_def]
  simp only [h]

theorem retryAux_err_retry {ε τ : Type} (fn : Nat → Except ε τ) (p : ε → Bool)
    (a r : Nat) {e : ε} (h : fn a = .error e) (hp : p e = true) :
    retryAux fn p a (r + 1) =
      ⟨(retryAux fn p (a + 1) r).result, (retryAux fn p (a + 1) r).attemptsMade + 1,
        (2 ^ a * 1000) :: (retryAux fn p (a + 1) r).delaysMs⟩ := by
  rw [retryAux.eq_def]
  simp only [h, hp, if_true]

theorem retryAux_err_noRetry {ε τ : Type} (fn : Nat → Except ε τ) (p : ε → Bool)
    (a r : Nat) {e : ε} (h : fn a = .error e) (hp : p e = false) :
    retryAux fn p a (r + 1) = ⟨.error e, 1, []⟩ := by
  rw [retryAux.eq_def]
  simp only [h, hp, if_false, Bool.false_eq_true]

theorem retryAux_stop {ε τ : Type} (fn : Nat → Except ε τ) (p : ε → Bool)
    (a r : Nat) {e : ε} (h : fn a = .error e) (hp : p e = false) :
    retryAux fn p a r = ⟨.error e, 1, []⟩ := by
  cases r with
  | zero => exact retryAux_err_zero fn p a h
  | succ r => exact retryAux_err_noRetry fn p a r h hp

theorem retryAux_attempts_pos {ε τ : Type} (fn : Nat → Except ε τ) (p : ε → Bool) :
    ∀ r a, 1 ≤ (retryAux fn p a r).attemptsMade := by
  intro r a
  cases r with
  | zero =>
    cases h : fn a with
    | ok t => rw [retryAux_ok_first fn p a 0 h]
    | error e => rw [retryAux_err_zero fn p a h]
  | succ r =>
    cases h : fn a with
    | ok t => rw [retryAux_ok_first fn p a (r + 1) h]
    | error e =>
      cases hp : p e with
      | false => rw [retryAux_err_noRetry fn p a r h hp]
      | true => rw [retryAux_err_retry fn p a r h hp]; exact Nat.le_add_left 1 _

theorem retryAux_attempts_le {ε τ : Type} (fn : Nat → Except ε τ) (p : ε → Bool) :
    ∀ r a, (retryAux fn p a r).attemptsMade ≤ r + 1 := by
  intro r
  induction r with
  | zero =>
    intro a
    cases h : fn a with
    | ok t => rw [retryAux_ok_first fn p a 0 h]
    | error e => rw [retryAux_err_zero fn p a h]
  | succ r ih =>
    intro a
    cases h : fn a with
    | ok t => rw [retryAux_ok_first fn p a (r + 1) h]; dsimp only; omega
    | error e =>
      cases hp : p e with
      | false => rw [retryAux_err_noRetry fn p a r h hp]; dsimp only; omega
      | true =>
        rw [retryAux_err_retry fn p a r h hp]
        have := ih (a + 1)
        simpa using Nat.add_le_add_right this 1

theorem retryAux_delays {ε τ : Type} (fn : Nat → Except ε τ) (p : ε → Bool) :
    ∀ r a, (retryAux fn p a r).delaysMs =
      (List.range ((retryAux fn p a r).attemptsMade - 1)).map
        (fun i => 2 ^ (a + i) * 1000) := by
  intro r
  induction r with
  | zero =>
    intro a
    cases h : fn a with
    | ok t => rw [retryAux_ok_first fn p a 0 h]; simp
    | error e => rw [retryAux_err_zero fn p a h]; simp
  | succ r ih =>
    intro a
    cases h : fn a with
    | ok t => rw [retryAux_ok_first fn p a (r + 1) h]; simp
    | error e =>
      cases hp : p e with
      | false => rw [retryAux_err_noRetry fn p a r h hp]; simp
      | true =>
        rw [retryAux_err_retry fn p a r h hp]
        have hpos := retryAux_attempts_pos fn p r (a + 1)
        simp only
        have hm : (retryAux fn p (a + 1) r).attemptsMade + 1 - 1 =
            ((retryAux fn p (a + 1) r).attemptsMade - 1) + 1 := by omega
        rw [hm, List.range_succ_eq_map, List.map_cons, List.map_map]
        refine congrArg₂ _ (by simp) ?_
        rw [ih (a + 1)]
        refine List.map_congr_left fun i _ => ?_
        simp only [Function.comp_apply]
        rw [show a + 1 + i = a + (i + 1) from by omega]

theorem retryAux_earlier {ε τ : Type} (fn : Nat → Except ε τ) (p : ε → Bool) :
    ∀ r a i, i < (retryAux fn p a r).attemptsMade - 1 →
      ∃ e, fn (a + i) = .error e ∧ p e = true := by
  intro r
  induction r with
  | zero =>
    intro a i hi
    cases h : fn a with
    | ok t => rw [retryAux_ok_first fn p a 0 h] at hi; dsimp only at hi; omega
    | error e => rw [retryAux_err_zero fn p a h] at hi; dsimp only at hi; omega
  | succ r ih =>
    intro a i hi
    cases h : fn a with
    | ok t => rw [retryAux_ok_first fn p a (r + 1) h] at hi; dsimp only at hi; omega
    | error e =>
      cases hp : p e with
      | false => rw [retryAux_err_noRetry fn p a r h hp] at hi; dsimp only at hi; omega
      | true =>
        rw [retryAux_err_retry fn p a r h hp] at hi
        simp only at hi
        cases i with
        | zero => exact ⟨e, by simpa using h, hp⟩
        | succ i =>
          have hlt : i < (retryAux fn p (a + 1) r).attemptsMade - 1 := by omega
          obtain ⟨e2, he2, hpe2⟩ := ih (a + 1) i hlt
          refine ⟨e2, ?_, hpe2⟩
          rw [show a + (i + 1) = a + 1 + i from by omega]
          exact he2

theorem retryAux_ok {ε τ : Type} (fn : Nat → Except ε τ) (p : ε → Bool) :
    ∀ r a t, (retryAux fn p a r).result = .ok t →
      fn (a + ((retryAux fn p a r).attemptsMade - 1)) = .ok t := by
  intro r
  induction r with
  | zero =>
    intro a t hres
    cases h : fn a with
    | ok t2 =>
      rw [retryAux_ok_first fn p a 0 h] at hres ⊢
      simp only at hres ⊢
      cases hres
      simpa using h
    | error e => rw [retryAux_err_zero fn p a h] at hres; simp at hres
  | succ r ih =>
    intro a t hres
    cases h : fn a with
    | ok t2 =>
      rw [retryAux_ok_first fn p a (r + 1) h] at hres ⊢
      simp only at hres ⊢
      cases hres
      simpa using h
    | error e =>
      cases hp : p e with
      | false => rw [retryAux_err_noRetry fn p a r h hp] at hres; simp at hres
      | true =>
        have hpos := retryAux_attempts_pos fn p r (a + 1)
        rw [retryAux_err_retry fn p a r h hp] at hres ⊢
        simp only at hres ⊢
        have := ih (a + 1) t hres
        rw [show a + ((retryAux fn p (a + 1) r).attemptsMade + 1 - 1) =
          a + 1 + ((retryAux fn p (a + 1) r).attemptsMade - 1) from by omega]
        exact this

theorem retryAux_error {ε τ : Type} (fn : Nat → Except ε τ) (p : ε → Bool) :
    ∀ r a e, (retryAux fn p a r).result = .error e →
      fn (a + ((retryAux fn p a r).attemptsMade - 1)) = .error e ∧
        ((retryAux fn p a r).attemptsMade = r + 1 ∨ p e = false) := by
  intro r
  induction r with
  | zero =>
    intro a e hres
    cases h : fn a with
    | ok t => rw [retryAux_ok_first fn p a 0 h] at hres; simp at hres
    | error e2 =>
      rw [retryAux_err_zero fn p a h] at hres ⊢
      simp only at hres ⊢
      cases hres
      exact ⟨by simpa using h, Or.inl (by simp)⟩
  | succ r ih =>
    intro a e hres
    cases h : fn a with
    | ok t => rw [retryAux_ok_first fn p a (r + 1) h] at hres; simp at hres
    | error e2 =>
      cases hp : p e2 with
      | false =>
        rw [retryAux_err_noRetry fn p a r h hp] at hres ⊢
        simp only at hres ⊢
        cases hres
        exact ⟨by simpa using h, Or.inr hp⟩
      | true =>
        have hpos := retryAux_attempts_pos fn p r (a + 1)
        have hle := retryAux_attempts_le fn p r (a + 1)
        rw [retryAux_err_retry fn p a r h hp] at hres ⊢
        simp only at hres ⊢
        obtain ⟨h1, h2⟩ := ih (a + 1) e hres
        constructor
        · rw [show a + ((retryAux fn p (a + 1) r).attemptsMade + 1 - 1) =
            a + 1 + ((retryAux fn p (a + 1) r).attemptsMade - 1) from by omega]
          exact h1
        · rcases h2 with h2 | h2
          · exact Or.inl (by omega)
          · exact Or.inr h2

theorem retryAux_ok_at {ε τ : Type} (fn : Nat → Except ε τ) (p : ε → Bool) :
    ∀ k r a t, k ≤ r →
      (∀ i, i < k → ∃ e, fn (a + i) = .error e ∧ p e = true) →
      fn (a + k) = .ok t →
      (retryAux fn p a r).result = .ok t ∧
        (retryAux fn p a r).attemptsMade = k + 1 := by
  intro k
  induction k with
  | zero =>
    intro r a t _ _ hok
    rw [retryAux_ok_first fn p a r (by simpa using hok)]
    exact ⟨rfl, rfl⟩
  | succ k ih =>
    intro r a t hkr hfail hok
    obtain ⟨e, he, hpe⟩ := hfail 0 (by omega)
    simp only [Nat.add_zero] at he
    obtain ⟨r2, rfl⟩ : ∃ r2, r = r2 + 1 := ⟨r - 1, by omega⟩
    have hrec := ih r2 (a + 1) t (by omega)
      (fun i hi => by
        obtain ⟨e2, he2, hpe2⟩ := hfail (i + 1) (by omega)
        refine ⟨e2, ?_, hpe2⟩
        rw [show a + 1 + i = a + (i + 1) from by omega]
        exact he2)
      (by rw [show a + 1 + k = a + (k + 1) from by omega]; exact hok)
    rw [retryAux_err_retry fn p a r2 he hpe]
    exact ⟨hrec.1, by simp only [hrec.2]⟩

theorem retryAux_all_fail {ε τ : Type} (fn : Nat → Except ε τ) (p : ε → Bool)
    (e : Nat → ε) :
    ∀ r a, (∀ i, i ≤ r → fn (a + i) = .error (e (a + i))) →
      (∀ i, i < r → p (e (a + i)) = true) →
      (retryAux fn p a r).result = .error (e (a + r)) ∧
        (retryAux fn p a r).attemptsMade = r + 1 := by
  intro r
  induction r with
  | zero =>
    intro a hf _
    have h0 := hf 0 (by omega)
    simp only [Nat.add_zero] at h0 ⊢
    rw [retryAux_err_zero fn p a h0]
    exact ⟨rfl, rfl⟩
  | succ r ih =>
    intro a hf hp
    have h0 := hf 0 (by omega)
    have hp0 := hp 0 (by omega)
    simp only [Nat.add_zero] at h0 hp0
    have hrec := ih (a + 1)
      (fun i hi => by
        rw [show a + 1 + i = a + (i + 1) from by omega]
        exact hf (i + 1) (by omega))
      (fun i hi => by
        rw [show a + 1 + i = a + (i + 1) from by omega]
        exact hp (i + 1) (by omega))
    rw [retryAux_err_retry fn p a r h0 hp0]
    refine ⟨?_, by simp only [hrec.2]⟩
    simp only
    rw [show a + (r + 1) = a + 1 + r from by omega]
    exact hrec.1

/-! ## Decimal digits of a `Nat` and the regex scanner -/

/-- Reference decimal printer: the digit characters of `n`, most
significant first. -/
def natChars (n : Nat) : List Char :=
  if _h : n < 10 then [Nat.digitChar n]
  else natChars (n / 10) ++ [Nat.digitChar (n % 10)]
decreasing_by exact Nat.div_lt_self (by omega) (by omega)

theorem digitChar_val {d : Nat} (h : d < 10) :
    (Nat.digitChar d).toNat - 48 = d := by
  interval_cases d <;> decide

theorem digitChar_isDigit {d : Nat} (h : d < 10) :
    (Nat.digitChar d).isDigit = true := by
  interval_cases d <;> decide

theorem digitsVal_append_singleton (xs : List Char) (c : Char) :
    digitsVal (xs ++ [c]) = digitsVal xs * 10 + (c.toNat - 48) := by
  simp [digitsVal, List.foldl_append]

theorem digitsVal_natChars (n : Nat) : digitsVal (natChars n) = n := by
  induction n using Nat.strong_induction_on with
  | _ n ih =>
    rw [natChars]
    by_cases h : n < 10
    · simp only [h, dif_pos]
      simp [digitsVal, digitChar_val h]
    · simp only [h, dif_neg, not_false_iff]
      rw [digitsVal_append_singleton,
        ih (n / 10) (Nat.div_lt_self (by omega) (by omega)),
        digitChar_val (Nat.mod_lt n (by omega))]
      omega

theorem natChars_all_digits (n : Nat) :
    ∀ c ∈ natChars n, c.isDigit = true := by
  induction n using Nat.strong_induction_on with
  | _ n ih =>
    rw [natChars]
    by_cases h : n < 10
    · simp only [h, dif_pos]
      intro c hc
      simp only [List.mem_singleton] at hc
      subst hc
      exact digitChar_isDigit h
    · simp only [h, dif_neg, not_false_iff]
      intro c hc
      rcases List.mem_append.mp hc with hc | hc
      · exact ih (n / 10) (Nat.div_lt_self (by omega) (by omega)) c hc
      · simp only [List.mem_singleton] at hc
        subst hc
        exact digitChar_isDigit (Nat.mod_lt n (by omega))

theorem natChars_ne_nil (n : Nat) : natChars n ≠ [] := by
  rw [natChars]
  by_cases h : n < 10 <;> simp [h]

/-- Correctness of the fuel-driven core printer against `natChars`. -/
theorem toDigitsCore_eq_natChars :
    ∀ fuel n ds, 0 < fuel → n < 10 ^ fuel →
      Nat.toDigitsCore 10 fuel n ds = natChars n ++ ds := by
  intro fuel
  induction fuel with
  | zero => intro n ds h; omega
  | succ f ih =>
    intro n ds _ hn
    by_cases h10 : n < 10
    · have hz : n / 10 = 0 := Nat.div_eq_of_lt h10
      simp only [Nat.toDigitsCore, hz, if_true]
      rw [natChars]
      simp only [h10, dif_pos]
      have : n % 10 = n := Nat.mod_eq_of_lt h10
      rw [this]
      rfl
    · have hz : ¬ n / 10 = 0 := by
        intro hcon
        have := Nat.div_eq_of_lt (by omega : n < 10) ▸ hcon
        omega
      have hfpos : 0 < f := by
        rcases Nat.eq_zero_or_pos f with hf | hf
        · subst hf; simp at hn; omega
        · exact hf
      have hdiv : n / 10 < 10 ^ f := by
        rw [Nat.div_lt_iff_lt_mul (by omega : 0 < 10)]
        calc n < 10 ^ (f + 1) := hn
          _ = 10 ^ f * 10 := by rw [pow_succ]
      simp only [Nat.toDigitsCore, hz, if_false]
      rw [ih (n / 10) (Nat.digitChar (n % 10) :: ds) hfpos hdiv]
      conv_rhs => rw [natChars]
      simp only [h10, dif_neg, not_false_iff]
      simp

/-- The character list of `toString (n : Nat)` is the reference decimal
printing. -/
theorem toString_nat_data (n : Nat) : (toString n).data = natChars n := by
  show (Nat.repr n).data = natChars n
  unfold Nat.repr Nat.toDigits
  have h1 : n < 10 ^ n := Nat.lt_pow_self (by omega) n
  have h2 : (10 : Nat) ^ n < 10 ^ (n + 1) := Nat.pow_lt_pow_succ (by omega)
  rw [toDigitsCore_eq_natChars (n + 1) n [] (by omega) (h1.trans h2)]
  simp [List.asString]

theorem leadingDigits_append_of_digits (xs : List Char) (c : Char)
    (ys : List Char) (hx : ∀ d ∈ xs, d.isDigit = true)
    (hc : c.isDigit = false) :
    leadingDigits (xs ++ c :: ys) = xs := by
  induction xs with
  | nil => simp [leadingDigits, hc]
  | cons x xs ih =>
    have hx0 : x.isDigit = true := hx x (by simp)
    simp only [List.cons_append, leadingDigits, hx0, if_true, List.append_eq]
    rw [ih (fun d hd => hx d (by simp [hd]))]

theorem scanStatus_pattern_first (tail : List Char)
    (hne : (leadingDigits tail).isEmpty = false) :
    scanStatus (triggerPattern ++ tail) = some (digitsVal (leadingDigits tail)) := by
  cases h : triggerPattern ++ tail with
  | nil =>
    have : triggerPattern = [] := List.append_eq_nil.mp h |>.1
    simp [triggerPattern] at this
  | cons c cs =>
    rw [scanStatus.eq_def]
    have hpre : triggerPattern.isPrefixOf (c :: cs) = true := by
      rw [← h]
      simp [List.isPrefixOf_iff_prefix]
    have hdrop : (c :: cs).drop triggerPattern.length = tail := by
      rw [← h]
      exact List.drop_left triggerPattern tail
    simp only [hpre, if_true, hdrop, hne, if_false, Bool.false_eq_true]

theorem leadingDigits_triggerTail (s : Nat) (body : String) :
    leadingDigits (natChars s ++ (' ' :: body.data)) = natChars s :=
  leadingDigits_append_of_digits (natChars s) ' ' body.data
    (natChars_all_digits s) (by decide)

theorem triggerMsg_data (s : Nat) (body : String) :
    (triggerMsg s body).data = triggerPattern ++ (natChars s ++ (' ' :: body.data)) := by
  show ("Failed to trigger action: " ++ toString s ++ " " ++ body).data = _
  simp only [String.data_append, toString_nat_data, triggerPattern]
  simp [String.toList]

theorem scanStatus_triggerMsg (s : Nat) (body : String) :
    scanStatus (triggerMsg s body).data = some s := by
  rw [triggerMsg_data, scanStatus_pattern_first _
    (by rw [leadingDigits_triggerTail]; simpa using natChars_ne_nil s)]
  rw [leadingDigits_triggerTail, digitsVal_natChars]

theorem shouldRetry_triggerMsg (s : Nat) (body : String)
    (hf : hasInfix fetchPattern (triggerMsg s body).data = false) :
    shouldRetry (.mk (triggerMsg s body)) = decide (500 ≤ s ∧ s < 600) := by
  simp only [shouldRetry, hf, Bool.false_eq_true, if_false, scanStatus_triggerMsg]

theorem shouldRetry_triggerMsg_5xx (s : Nat) (body : String)
    (h5 : 500 ≤ s ∧ s < 600) :
    shouldRetry (.mk (triggerMsg s body)) = true := by
  by_cases hf : hasInfix fetchPattern (triggerMsg s body).data = true
  · simp [shouldRetry, hf]
  · rw [shouldRetry_triggerMsg s body (by simpa using hf)]
    simpa using h5

theorem shouldRetry_true_iff (msg : String) :
    shouldRetry (.mk msg) = true ↔
      hasInfix fetchPattern msg.data = true ∨
        ∃ n, scanStatus msg.data = some n ∧ 500 ≤ n ∧ n < 600 := by
  by_cases hf : hasInfix fetchPattern msg.data = true
  · simp [shouldRetry, hf]
  · have hf2 : hasInfix fetchPattern msg.data = false := by simpa using hf
    cases hsc : scanStatus msg.data with
    | none => simp [shouldRetry, hf2, hsc]
    | some n => simp [shouldRetry, hf2, hsc, and_assoc]

/-! ## Helper lemmas about `run`'s fields -/

theorem run_triggerCalls (env : RunEnv) :
    (run env).triggerCalls = (runTrigger env).attemptsMade := by
  unfold run
  cases h : (runTrigger env).result with
  | error e => simp [h]
  | ok rid =>
    by_cases hr : strIsEmpty (rid.getD "") = true
    · simp [h, hr]
    · simp [h, hr]

theorem run_versionCalls (env : RunEnv) :
    (run env).versionCalls = (runVersion env).attemptsMade := by
  unfold run
  cases h : (runTrigger env).result with
  | error e => simp [h]
  | ok rid =>
    by_cases hr : strIsEmpty (rid.getD "") = true
    · simp [h, hr]
    · simp [h, hr]

theorem run_versionOutput (env : RunEnv) :
    (run env).versionOutput = versionOutputOf (runVersion env).result := by
  unfold run
  cases h : (runTrigger env).result with
  | error e => simp [h]
  | ok rid =>
    by_cases hr : strIsEmpty (rid.getD "") = true
    · simp [h, hr]
    · simp [h, hr]

theorem run_warnings_mem (env : RunEnv) (m : String)
    (hm : m ∈ versionWarningsOf (runVersion env).result) :
    m ∈ (run env).warnings := by
  unfold run
  cases h : (runTrigger env).result with
  | error e => simpa [h] using hm
  | ok rid =>
    by_cases hr : strIsEmpty (rid.getD "") = true
    · simpa [h, hr] using hm
    · simp only [h, hr]
      simp [hm]

/-! ## Helper lemmas about the stream loop -/

theorem empty_append_str (c : String) : "" ++ c = c := by
  cases c
  rfl

/-- Whether a frame outcome is the terminal (`return`) case. -/
def isTerminal : FrameOutcome → Bool
  | .terminal _ _ => true
  | _ => false

theorem processFrames_no_terminal (parse : String → Option JsonEvent) :
    ∀ frames st,
      (∀ f ∈ frames, isTerminal (frameOutcome parse f) = false) →
      (processFrames parse st frames).2 = false ∧
        (processFrames parse st frames).1.outputs = st.outputs ∧
        (processFrames parse st frames).1.failures = st.failures := by
  intro frames
  induction frames with
  | nil => intro st _; exact ⟨rfl, rfl, rfl⟩
  | cons f fs ih =>
    intro st hf
    cases ho : frameOutcome parse f with
    | terminal s b =>
      have := hf f (by simp)
      rw [ho] at this
      simp [isTerminal] at this
    | next =>
      simp only [processFrames, ho, applyFrame]
      exact ih st (fun g hg => hf g (by simp [hg]))
    | warned d =>
      simp only [processFrames, ho, applyFrame]
      have := ih { st with warnings := st.warnings ++ ["Failed to parse event data: " ++ d] }
        (fun g hg => hf g (by simp [hg]))
      exact this

theorem streamLoop_no_terminal (parse : String → Option JsonEvent) :
    ∀ events st,
      (∀ ev ∈ events, ∃ c, ev = .chunk c ∧
        ∀ f ∈ jsSplit c "\n\n", isTerminal (frameOutcome parse f) = false) →
      (streamLoop parse events "" st).2.2 = .finished ∧
        (streamLoop parse events "" st).2.1.outputs = st.outputs ∧
        (streamLoop parse events "" st).2.1.failures = st.failures := by
  intro events
  induction events with
  | nil => intro st _; exact ⟨rfl, rfl, rfl⟩
  | cons ev evs ih =>
    intro st hev
    obtain ⟨c, rfl, hframes⟩ := hev ev (by simp)
    simp only [streamLoop, empty_append_str]
    have hpf := processFrames_no_terminal parse (jsSplit c "\n\n") st hframes
    simp only [hpf.1, if_false, Bool.false_eq_true]
    have := ih (processFrames parse st (jsSplit c "\n\n")).1
      (fun e he => hev e (by simp [he]))
    exact ⟨this.1, this.2.1.trans hpf.2.1, this.2.2.trans hpf.2.2⟩

/-! ## Shared concrete instances used by witnesses and counterexamples -/

/-- A concrete JSON decoder used for concrete evaluations: recognizes a few
fixed payload strings. -/
def parseDemo : String → Option JsonEvent := fun s =>
  if s = "payload-passed" then some ⟨some "passed"⟩
  else if s = "payload-failed" then some ⟨some "failed"⟩
  else if s = "payload-running" then some ⟨some "running"⟩
  else if s = "payload-timedout" then some ⟨some "timed_out"⟩
  else if s = "payload-nostatus" then some ⟨none⟩
  else none

/-- A version endpoint that always answers `200` with version `1337`. -/
def venvOk : Nat → VersionAttempt := fun _ => .resp true 200 (some "1337")

/-- A version endpoint whose fetch always rejects. -/
def venvFail : Nat → VersionAttempt := fun i => .netErr ("boom " ++ toString i)

/-- An SSE connection that opens fine and ends immediately. -/
def sseEmpty : ConnectInput := ⟨true, true, 200, []⟩

/-! ## C2 — the Backoff Retrier contract -/

/-- C2: for every operation, retry budget `N ≥ 0` and predicate, the
retrier runs the operation between `1` and `N + 1` times; the sleeps
between attempts are exactly `2 ^ attempt` seconds (`2 ^ attempt * 1000`
ms) for attempts `0, 1, 2, …`; every attempt before the last one failed
with a retryable failure (so a success is the first success); a success is
the last attempt's result; and a propagated failure is the last attempt's
failure, propagated exactly when that attempt was the last allowed one or
the predicate rejected it. -/
theorem retryWithBackoff_spec {ε τ : Type} (fn : Nat → Except ε τ) (N : Nat)
    (p : ε → Bool) :
    1 ≤ (retryWithBackoff fn N p).attemptsMade ∧
    (retryWithBackoff fn N p).attemptsMade ≤ N + 1 ∧
    (retryWithBackoff fn N p).delaysMs =
      (List.range ((retryWithBackoff fn N p).attemptsMade - 1)).map
        (fun i => 2 ^ i * 1000) ∧
    (∀ i, i < (retryWithBackoff fn N p).attemptsMade - 1 →
      ∃ e, fn i = .error e ∧ p e = true) ∧
    (∀ t, (retryWithBackoff fn N p).result = .ok t →
      fn ((retryWithBackoff fn N p).attemptsMade - 1) = .ok t) ∧
    (∀ e, (retryWithBackoff fn N p).result = .error e →
      fn ((retryWithBackoff fn N p).attemptsMade - 1) = .error e ∧
        ((retryWithBackoff fn N p).attemptsMade = N + 1 ∨ p e = false)) := by
  unfold retryWithBackoff
  refine ⟨retryAux_attempts_pos fn p N 0, retryAux_attempts_le fn p N 0, ?_, ?_, ?_, ?_⟩
  · simpa using retryAux_delays fn p N 0
  · intro i hi
    simpa using retryAux_earlier fn p N 0 i hi
  · intro t ht
    simpa using retryAux_ok fn p N 0 t ht
  · intro e he
    simpa using retryAux_error fn p N 0 e he

/-- A demo operation for the retrier: fails on attempts 0 and 1, succeeds
on attempt 2. -/
def retryDemoFn : Nat → Except String Nat := fun i =>
  if i < 2 then .error (toString i) else .ok 7

/-- Witness for C2 at a concrete operation: at most 4 attempts with budget
3, the first success is returned, and the sleeps are 1s then 2s. -/
theorem retryWithBackoff_spec_witness :
    (retryWithBackoff retryDemoFn 3 (fun _ => true)).attemptsMade ≤ 3 + 1 ∧
    (retryWithBackoff retryDemoFn 3 (fun _ => true)).result = .ok 7 ∧
    (retryWithBackoff retryDemoFn 3 (fun _ => true)).delaysMs = [1000, 2000] :=
  ⟨(retryWithBackoff_spec retryDemoFn 3 (fun _ => true)).2.1, rfl, rfl⟩

/-! ## Frame classification (C1, C6, C10) -/

/-- Reduction of `frameOutcome` for a non-blank frame with a non-empty,
decodable payload. -/
theorem frameOutcome_parsed (parse : String → Option JsonEvent)
    (line d : String) (ev : JsonEvent)
    (h1 : strIsEmpty (jsTrim line) = false)
    (h2 : frameData line = some d)
    (h3 : strIsEmpty d = false)
    (h4 : parse d = some ev) :
    frameOutcome parse line =
      if frameEventType line ≠ some "test_suite_run.event" then .next
      else if statusIncluded ["pending", "running"] ev.status then .next
      else .terminal ev.status (!statusIncluded ["passed", "flaky"] ev.status) := by
  unfold frameOutcome
  simp only [h1, h2, h3, h4, Bool.false_eq_true, if_false]

/-- C1: for every decoded `test_suite_run.event` frame, the status is
classified into exactly one of three classes: `pending`/`running` →
continue consuming with the sink state untouched; `passed`/`flaky` → the
`status` output is appended and no failure signal is raised, and reading
stops; any other status (including `undefined` and unknown strings) → the
`status` output is appended together with exactly one failure signal
naming that status, and reading stops (the remaining frames are never
processed). -/
theorem sse_status_classification (parse : String → Option JsonEvent)
    (line d : String) (ev : JsonEvent) (st : SseState) (fs : List String)
    (h1 : strIsEmpty (jsTrim line) = false)
    (h2 : frameData line = some d)
    (h3 : strIsEmpty d = false)
    (h4 : parse d = some ev)
    (h5 : frameEventType line = some "test_suite_run.event") :
    (ev.status = some "pending" ∨ ev.status = some "running" →
      frameOutcome parse line = .next ∧
      processFrames parse st (line :: fs) = processFrames parse st fs) ∧
    (ev.status = some "passed" ∨ ev.status = some "flaky" →
      frameOutcome parse line = .terminal ev.status false ∧
      processFrames parse st (line :: fs) =
        ({ st with outputs := st.outputs ++ [("status", ev.status)] }, true)) ∧
    (ev.status ∉ [some "pending", some "running", some "passed", some "flaky"] →
      frameOutcome parse line = .terminal ev.status true ∧
      processFrames parse st (line :: fs) =
        (⟨st.outputs ++ [("status", ev.status)],
          st.failures ++
            ["Test suite execution failed with status: " ++ statusText ev.status],
          st.warnings⟩, true)) := by
  have hfo := frameOutcome_parsed parse line d ev h1 h2 h3 h4
  rw [h5] at hfo
  simp only [ne_eq, not_true_eq_false, if_false] at hfo
  refine ⟨?_, ?_, ?_⟩
  · rintro (h | h) <;> rw [h] at hfo <;>
      simp only [show statusIncluded ["pending", "running"] (some "pending") = true
          from by decide,
        show statusIncluded ["pending", "running"] (some "running") = true
          from by decide, if_true] at hfo <;>
      exact ⟨hfo, by simp [processFrames, hfo, applyFrame]⟩
  · rintro (h | h) <;> rw [h] at hfo ⊢ <;>
      [(simp only [show statusIncluded ["pending", "running"] (some "passed") = false
          from by decide,
        show statusIncluded ["passed", "flaky"] (some "passed") = true
          from by decide, Bool.false_eq_true, if_false, Bool.not_true] at hfo);
       (simp only [show statusIncluded ["pending", "running"] (some "flaky") = false
          from by decide,
        show statusIncluded ["passed", "flaky"] (some "flaky") = true
          from by decide, Bool.false_eq_true, if_false, Bool.not_true] at hfo)] <;>
      exact ⟨hfo, by simp [processFrames, hfo, applyFrame]⟩
  · intro h
    have hp1 : statusIncluded ["pending", "running"] ev.status = false := by
      cases hs : ev.status with
      | none => rfl
      | some s =>
        simp only [hs, List.mem_cons, not_or] at h
        simp only [statusIncluded, List.contains, List.elem_eq_mem,
          decide_eq_false_iff_not, List.mem_cons, List.not_mem_nil, or_false,
          not_or]
        exact ⟨fun hcon => h.1 (by rw [hcon]), fun hcon => h.2.1 (by rw [hcon])⟩
    have hp2 : statusIncluded ["passed", "flaky"] ev.status = false := by
      cases hs : ev.status with
      | none => rfl
      | some s =>
        simp only [hs, List.mem_cons, not_or] at h
        simp only [statusIncluded, List.contains, List.elem_eq_mem,
          decide_eq_false_iff_not, List.mem_cons, List.not_mem_nil, or_false,
          not_or]
        exact ⟨fun hcon => h.2.2.1 (by rw [hcon]),
          fun hcon => h.2.2.2.1 (by rw [hcon])⟩
    rw [hp1, hp2] at hfo
    simp only [Bool.false_eq_true, if_false, Bool.not_false] at hfo
    exact ⟨hfo, by simp [processFrames, hfo, applyFrame]⟩

/-- Witness for C1: a concrete `test_suite_run.event` frame carrying
status `timed_out` is classified as terminal failure: the `status` output
is appended, exactly one failure signal naming `timed_out` is raised, and
the following frame is never processed. -/
theorem sse_status_classification_witness :
    frameOutcome parseDemo
      "event: test_suite_run.event\ndata: payload-timedout" =
        .terminal (some "timed_out") true ∧
    processFrames parseDemo ⟨[], [], []⟩
      ["event: test_suite_run.event\ndata: payload-timedout",
        "event: test_suite_run.event\ndata: payload-passed"] =
      (⟨[("status", some "timed_out")],
        ["Test suite execution failed with status: timed_out"], []⟩, true) := by
  have h := (sse_status_classification parseDemo
    "event: test_suite_run.event\ndata: payload-timedout"
    "payload-timedout" ⟨some "timed_out"⟩ ⟨[], [], []⟩
    ["event: test_suite_run.event\ndata: payload-passed"]
    (by decide) (by decide) (by decide) (by decide) (by decide)).2.2
    (by decide)
  exact ⟨h.1, by rw [h.2]; decide⟩

/-- C10: a `test_suite_run.event` frame whose payload decodes but carries
no `status` field is treated as a terminal failure: the `status` output is
appended with the undefined value, exactly one failure signal naming the
undefined status is raised, and reading stops (remaining frames are never
processed). -/
theorem sse_missing_status_terminal (parse : String → Option JsonEvent)
    (line d : String) (st : SseState) (fs : List String)
    (h1 : strIsEmpty (jsTrim line) = false)
    (h2 : frameData line = some d)
    (h3 : strIsEmpty d = false)
    (h4 : parse d = some ⟨none⟩)
    (h5 : frameEventType line = some "test_suite_run.event") :
    frameOutcome parse line = .terminal none true ∧
    processFrames parse st (line :: fs) =
      (⟨st.outputs ++ [("status", none)],
        st.failures ++ ["Test suite execution failed with status: undefined"],
        st.warnings⟩, true) := by
  have hfo := frameOutcome_parsed parse line d ⟨none⟩ h1 h2 h3 h4
  rw [h5] at hfo
  simp only [ne_eq, not_true_eq_false, if_false] at hfo
  have hp1 : statusIncluded ["pending", "running"] (none : Option String) = false := rfl
  have hp2 : statusIncluded ["passed", "flaky"] (none : Option String) = false := rfl
  rw [hp1, hp2] at hfo
  simp only [Bool.false_eq_true, if_false, Bool.not_false] at hfo
  refine ⟨hfo, ?_⟩
  simp only [processFrames, hfo, applyFrame]
  simp [statusText]

/-- Witness for C10: a concrete frame whose payload decodes to an object
without a `status` field sets the `status` output to the undefined value,
raises one failure naming `undefined`, and stops before the next frame. -/
theorem sse_missing_status_terminal_witness :
    frameOutcome parseDemo
      "event: test_suite_run.event\ndata: payload-nostatus" =
        .terminal none true ∧
    processFrames parseDemo ⟨[], [], []⟩
      ["event: test_suite_run.event\ndata: payload-nostatus",
        "event: test_suite_run.event\ndata: payload-passed"] =
      (⟨[("status", none)],
        ["Test suite execution failed with status: undefined"], []⟩, true) := by
  have h := sse_missing_status_terminal parseDemo
    "event: test_suite_run.event\ndata: payload-nostatus"
    "payload-nostatus" ⟨[], [], []⟩
    ["event: test_suite_run.event\ndata: payload-passed"]
    (by decide) (by decide) (by decide) (by decide) (by decide)
  exact ⟨h.1, by rw [h.2]; decide⟩

/-! ## C6 — the event-label gate -/

/-- Counterexample to C6: the claim says a frame whose `event:` label is
absent has its payload's `status` inspected.  On the code, a frame with a
decodable `failed` payload and no `event:` label is skipped outright: the
outcome is `next` and the sink state is untouched (no `status` output, no
failure), because `undefined !== 'test_suite_run.event'` also holds for an
absent label. -/
theorem sse_absent_label_skipped :
    frameEventType "data: payload-failed" = none ∧
    frameOutcome parseDemo "data: payload-failed" = .next ∧
    processFrames parseDemo ⟨[], [], []⟩ ["data: payload-failed"] =
      (⟨[], [], []⟩, false) := by
  refine ⟨by decide, by decide, by decide⟩

/-- C6 as amended: a non-blank frame with a non-empty decodable payload is
skipped whenever its `event:` label is not exactly
`test_suite_run.event` — in particular also when the label is absent; only
a frame whose label is exactly `test_suite_run.event` has its payload's
`status` field inspected. -/
theorem sse_event_label_gate (parse : String → Option JsonEvent)
    (line d : String) (ev : JsonEvent)
    (h1 : strIsEmpty (jsTrim line) = false)
    (h2 : frameData line = some d)
    (h3 : strIsEmpty d = false)
    (h4 : parse d = some ev) :
    (frameEventType line ≠ some "test_suite_run.event" →
      frameOutcome parse line = .next) ∧
    (frameEventType line = some "test_suite_run.event" →
      frameOutcome parse line =
        if statusIncluded ["pending", "running"] ev.status then .next
        else .terminal ev.status (!statusIncluded ["passed", "flaky"] ev.status)) := by
  have hfo := frameOutcome_parsed parse line d ev h1 h2 h3 h4
  constructor
  · intro hne
    rw [hfo, if_pos hne]
  · intro heq
    rw [hfo, heq]
    simp

/-- Witness for C6 as amended: the same payload is skipped under an absent
label and inspected (terminally, with status `failed`) under the
`test_suite_run.event` label. -/
theorem sse_event_label_gate_witness :
    frameOutcome parseDemo "data: payload-failed" = .next ∧
    frameOutcome parseDemo "event: test_suite_run.event\ndata: payload-failed" =
      .terminal (some "failed") true := by
  constructor
  · exact (sse_event_label_gate parseDemo "data: payload-failed"
      "payload-failed" ⟨some "failed"⟩ (by decide) (by decide) (by decide)
      (by decide)).1 (by decide)
  · have h := (sse_event_label_gate parseDemo
      "event: test_suite_run.event\ndata: payload-failed"
      "payload-failed" ⟨some "failed"⟩ (by decide) (by decide) (by decide)
      (by decide)).2 (by decide)
    rw [h]
    decide

/-! ## C5 — abort and release discipline -/

/-- Counterexample to C5: the claim says the cancellation handle is
signaled exactly once on every exit path including the non-2xx connect
failure.  On the code, the `finally` that runs `reader.releaseLock()` and
`abortController.abort()` only wraps the read loop, which is never entered
when the connect response is not ok: on that path the handle is never
aborted (and no reader exists to release) while the consumer still exits
through the failure signal. -/
theorem sse_connect_failure_no_abort :
    (connectToSSE parseDemo ⟨false, true, 500, []⟩).abortCount = 0 ∧
    (connectToSSE parseDemo ⟨false, true, 500, []⟩).releaseCount = 0 ∧
    (connectToSSE parseDemo ⟨false, true, 500, []⟩).state.failures =
      ["SSE connection error: Failed to connect to SSE endpoint: 500"] := by
  refine ⟨rfl, rfl, rfl⟩

/-- C5 as amended: on every exit path of the consumer that reaches the
streaming phase (the connect response is ok and has a body) — normal
completion, early terminal return, swallowed cancellation, or a rethrown
read error — the cancellation handle is aborted exactly once and the
reader is released exactly once; on the connect-failure path the reader is
never obtained, the handle is never signaled, and the consumer exits
through the single connect failure signal. -/
theorem sse_abort_release (parse : String → Option JsonEvent)
    (input : ConnectInput) :
    (input.ok = true → input.hasBody = true →
      (connectToSSE parse input).abortCount = 1 ∧
      (connectToSSE parse input).releaseCount = 1) ∧
    (input.ok = false ∨ input.hasBody = false →
      (connectToSSE parse input).abortCount = 0 ∧
      (connectToSSE parse input).releaseCount = 0 ∧
      (connectToSSE parse input).state.failures =
        ["SSE connection error: Failed to connect to SSE endpoint: " ++
          toString input.status]) := by
  constructor
  · intro hok hbody
    unfold connectToSSE
    rw [hok, hbody]
    simp only [Bool.not_true, Bool.or_self, Bool.false_eq_true, if_false]
    cases (streamLoop parse input.events "" ⟨[], [], []⟩).2.2 <;> exact ⟨rfl, rfl⟩
  · intro hbad
    unfold connectToSSE
    rcases hbad with hbad | hbad <;> rw [hbad] <;> simp

/-- Witness for C5 as amended: on a concrete stream that ends after one
`running` frame, abort and release each run exactly once; the witness also
exercises the connect-failure conjunct at a concrete non-ok input. -/
theorem sse_abort_release_witness :
    (connectToSSE parseDemo ⟨true, true, 200,
      [.chunk "event: test_suite_run.event\ndata: payload-running\n\n"]⟩).abortCount = 1 ∧
    (connectToSSE parseDemo ⟨true, true, 200,
      [.chunk "event: test_suite_run.event\ndata: payload-running\n\n"]⟩).releaseCount = 1 ∧
    (connectToSSE parseDemo ⟨true, false, 404, []⟩).abortCount = 0 := by
  have h1 := (sse_abort_release parseDemo ⟨true, true, 200,
    [.chunk "event: test_suite_run.event\ndata: payload-running\n\n"]⟩).1 rfl rfl
  have h2 := (sse_abort_release parseDemo ⟨true, false, 404, []⟩).2 (Or.inr rfl)
  exact ⟨h1.1, h1.2, h2.1⟩

/-! ## C7 — the accumulation buffer is reset on every read -/

/-- C7: in every execution of the read loop, the accumulation buffer is
empty at the start of processing each chunk, and the frames processed for
the `i`-th read are exactly the `i`-th chunk's text split on the
double-newline delimiter — so a frame split across two physical reads is
handled as two separate pieces, never reassembled. -/
theorem sse_buffer_reset (parse : String → Option JsonEvent)
    (events : List ReadEvent) (st : SseState) :
    ∀ (i : Nat) (tr : ReadTrace), (streamLoop parse events "" st).1[i]? = some tr →
      tr.bufferAtStart = "" ∧
      ∃ c, events[i]? = some (ReadEvent.chunk c) ∧ tr.frames = jsSplit c "\n\n" := by
  induction events generalizing st with
  | nil => intro i tr htr; simp [streamLoop] at htr
  | cons ev evs ih =>
    intro i tr htr
    cases ev with
    | abortErr => simp [streamLoop] at htr
    | readErr m => simp [streamLoop] at htr
    | chunk c =>
      by_cases hstop : (processFrames parse st (jsSplit c "\n\n")).2 = true
      · simp only [streamLoop, empty_append_str, hstop, if_true] at htr
        cases i with
        | zero =>
          simp only [List.getElem?_cons_zero, Option.some_inj] at htr
          subst htr
          exact ⟨rfl, c, by simp, rfl⟩
        | succ i => simp at htr
      · simp only [streamLoop, empty_append_str, hstop, if_false,
          Bool.false_eq_true] at htr
        cases i with
        | zero =>
          simp only [List.getElem?_cons_zero, Option.some_inj] at htr
          subst htr
          exact ⟨rfl, c, by simp, rfl⟩
        | succ i =>
          simp only [List.getElem?_cons_succ] at htr
          have := ih (processFrames parse st (jsSplit c "\n\n")).1 i tr htr
          simpa using this

/-- Witness for C7: two concrete reads that split one frame across the
boundary; each read's buffer starts empty and its frames are exactly that
read's text split on the delimiter, so the halves of the split frame are
processed separately rather than reassembled. -/
theorem sse_buffer_reset_witness :
    ((⟨"", ["data: payl"]⟩ : ReadTrace).bufferAtStart = "" ∧
      ∃ c, [ReadEvent.chunk "data: payl",
          ReadEvent.chunk "oad-failed\n\n"][(0 : Nat)]? =
          some (ReadEvent.chunk c) ∧
        (⟨"", ["data: payl"]⟩ : ReadTrace).frames = jsSplit c "\n\n") ∧
    ((⟨"", ["oad-failed", ""]⟩ : ReadTrace).bufferAtStart = "" ∧
      ∃ c, [ReadEvent.chunk "data: payl",
          ReadEvent.chunk "oad-failed\n\n"][(1 : Nat)]? =
          some (ReadEvent.chunk c) ∧
        (⟨"", ["oad-failed", ""]⟩ : ReadTrace).frames = jsSplit c "\n\n") := by
  constructor
  · exact sse_buffer_reset parseDemo
      [.chunk "data: payl", .chunk "oad-failed\n\n"] ⟨[], [], []⟩ 0
      ⟨"", ["data: payl"]⟩ (by decide)
  · exact sse_buffer_reset parseDemo
      [.chunk "data: payl", .chunk "oad-failed\n\n"] ⟨[], [], []⟩ 1
      ⟨"", ["oad-failed", ""]⟩ (by decide)

/-- Shape of `run` when the trigger eventually succeeds with a non-empty
run id: the SSE phase runs and its sink effects are reported. -/
theorem run_of_sse (env : RunEnv) (rid : String)
    (htr : (runTrigger env).result = .ok (some rid))
    (hrid : strIsEmpty rid = false) :
    run env =
      { versionOutput := versionOutputOf (runVersion env).result,
        runIdOutput := some rid,
        statusOutputs := statusOutputsOf (connectToSSE env.parse env.sse).state,
        warnings := versionWarningsOf (runVersion env).result ++
          (connectToSSE env.parse env.sse).state.warnings,
        failures := (connectToSSE env.parse env.sse).state.failures,
        versionCalls := (runVersion env).attemptsMade,
        triggerCalls := (runTrigger env).attemptsMade,
        sseStarted := true,
        abortCount := (connectToSSE env.parse env.sse).abortCount,
        releaseCount := (connectToSSE env.parse env.sse).releaseCount } := by
  simp only [run, htr]
  have : strIsEmpty (Option.getD (some rid) "") = false := hrid
  simp only [this, Bool.false_eq_true, if_false]

/-- Shape of `run` when the trigger stage propagates a failure: the run
aborts with that single failure message and the SSE phase never starts. -/
theorem run_of_trigger_error (env : RunEnv) (e : JsError)
    (htr : (runTrigger env).result = .error e) :
    run env =
      { versionOutput := versionOutputOf (runVersion env).result,
        runIdOutput := none, statusOutputs := [],
        warnings := versionWarningsOf (runVersion env).result,
        failures := [errMessage e],
        versionCalls := (runVersion env).attemptsMade,
        triggerCalls := (runTrigger env).attemptsMade,
        sseStarted := false, abortCount := 0, releaseCount := 0 } := by
  simp only [run, htr]

/-- Shape of `run` when the trigger succeeds but the parsed `run_id` is
absent or empty: the distinct no-run-ID failure is raised and the SSE
phase never starts. -/
theorem run_of_empty_rid (env : RunEnv) (rid : Option String)
    (htr : (runTrigger env).result = .ok rid)
    (hrid : strIsEmpty (rid.getD "") = true) :
    run env =
      { versionOutput := versionOutputOf (runVersion env).result,
        runIdOutput := none, statusOutputs := [],
        warnings := versionWarningsOf (runVersion env).result,
        failures := ["No run ID received from the trigger endpoint"],
        versionCalls := (runVersion env).attemptsMade,
        triggerCalls := (runTrigger env).attemptsMade,
        sseStarted := false, abortCount := 0, releaseCount := 0 } := by
  simp only [run, htr, hrid, if_true]

/-! ## C9 — end-of-stream before any terminal event -/

/-- C9: when the trigger succeeds with a non-empty run id and the SSE
stream opens fine but signals end-of-stream before any terminal-status
frame, the consumer returns normally: the `status` output is never set, no
failure signal is raised anywhere in the run, and the run completes (the
streaming phase was entered and finished). -/
theorem sse_end_of_stream_success (venv : Nat → VersionAttempt)
    (trig : Nat → TriggerResponse) (m status : Nat)
    (events : List ReadEvent) (parse : String → Option JsonEvent)
    (rid : String)
    (htrig : triggerAction (trig 0) = .ok (some rid))
    (hrid : strIsEmpty rid = false)
    (hev : ∀ ev ∈ events, ∃ c, ev = .chunk c ∧
      ∀ f ∈ jsSplit c "\n\n", isTerminal (frameOutcome parse f) = false) :
    (run ⟨venv, trig, m, ⟨true, true, status, events⟩, parse⟩).statusOutputs = [] ∧
    (run ⟨venv, trig, m, ⟨true, true, status, events⟩, parse⟩).failures = [] ∧
    (run ⟨venv, trig, m, ⟨true, true, status, events⟩, parse⟩).sseStarted = true := by
  have htr : runTrigger ⟨venv, trig, m, ⟨true, true, status, events⟩, parse⟩ =
      ⟨.ok (some rid), 1, []⟩ := by
    unfold runTrigger
    by_cases hm : (⟨venv, trig, m, ⟨true, true, status, events⟩, parse⟩ :
        RunEnv).maxRetries > 0
    · rw [if_pos hm]
      exact retryAux_ok_first _ shouldRetry 0 m htrig
    · rw [if_neg hm, htrig]
  have hl := streamLoop_no_terminal parse events ⟨[], [], []⟩ hev
  have hc : connectToSSE parse ⟨true, true, status, events⟩ =
      { state := (streamLoop parse events "" ⟨[], [], []⟩).2.1,
        traces := (streamLoop parse events "" ⟨[], [], []⟩).1,
        abortCount := 1, releaseCount := 1 } := by
    unfold connectToSSE
    simp only [hl.1]
    rfl
  rw [run_of_sse _ rid (by rw [htr]) hrid]
  dsimp only
  rw [hc]
  refine ⟨?_, hl.2.2, rfl⟩
  simp [statusOutputsOf, hl.2.1]

/-- Witness for C9: concrete run whose stream emits one `running` frame
and then ends; no `status` output, no failure, and the stream phase
completed. -/
theorem sse_end_of_stream_success_witness :
    (run ⟨venvOk, fun _ => ⟨true, 200, "", some "r-1"⟩, 0, ⟨true, true, 200,
      [.chunk "event: test_suite_run.event\ndata: payload-running\n\n"]⟩,
      parseDemo⟩).statusOutputs = [] ∧
    (run ⟨venvOk, fun _ => ⟨true, 200, "", some "r-1"⟩, 0, ⟨true, true, 200,
      [.chunk "event: test_suite_run.event\ndata: payload-running\n\n"]⟩,
      parseDemo⟩).failures = [] ∧
    (run ⟨venvOk, fun _ => ⟨true, 200, "", some "r-1"⟩, 0, ⟨true, true, 200,
      [.chunk "event: test_suite_run.event\ndata: payload-running\n\n"]⟩,
      parseDemo⟩).sseStarted = true := by
  refine sse_end_of_stream_success venvOk (fun _ => ⟨true, 200, "", some "r-1"⟩)
    0 200 [.chunk "event: test_suite_run.event\ndata: payload-running\n\n"]
    parseDemo "r-1" rfl (by decide) ?_
  intro ev hev
  rw [List.mem_singleton] at hev
  subst hev
  exact ⟨"event: test_suite_run.event\ndata: payload-running\n\n", rfl, by decide⟩

/-! ## C3, C4 — the Trigger Client -/

theorem runTrigger_first_ok (env : RunEnv) (rid : Option String)
    (h : triggerAction (env.triggerAttempts 0) = .ok rid) :
    runTrigger env = ⟨.ok rid, 1, []⟩ := by
  unfold runTrigger
  by_cases hm : env.maxRetries > 0
  · rw [if_pos hm]
    exact retryAux_ok_first _ shouldRetry 0 env.maxRetries h
  · rw [if_neg hm, h]

theorem runTrigger_stop (env : RunEnv) (e : JsError)
    (hm : 0 < env.maxRetries)
    (h : triggerAction (env.triggerAttempts 0) = .error e)
    (hp : shouldRetry e = false) :
    runTrigger env = ⟨.error e, 1, []⟩ := by
  unfold runTrigger
  rw [if_pos hm]
  exact retryAux_stop _ shouldRetry 0 env.maxRetries h hp

theorem runTrigger_attempts_pos (env : RunEnv) :
    1 ≤ (runTrigger env).attemptsMade := by
  unfold runTrigger
  by_cases hm : env.maxRetries > 0
  · rw [if_pos hm]
    exact retryAux_attempts_pos _ shouldRetry env.maxRetries 0
  · rw [if_neg hm]

/-- Counterexample to C3: the claim says a status in `[400,500)` is never
retried (only network-level failures and 5xx are retryable).  On the code,
`shouldRetry` first tests whether the message contains the substring
`fetch`; a 404 whose response body text contains the word `fetch` is
therefore classified retryable, and with `maxRetries = 1` the trigger is
attempted twice. -/
theorem trigger_4xx_fetch_body_retried :
    shouldRetry (.mk "Failed to trigger action: 404 please fetch later") = true ∧
    (run ⟨venvOk, fun _ => ⟨false, 404, "please fetch later", none⟩, 1,
      sseEmpty, parseDemo⟩).triggerCalls = 2 :=
  ⟨by decide, by decide⟩

/-- C3 as amended: a failure is retryable iff its message contains the
substring `fetch` (the shape of network-level fetch failures) or its
embedded `Failed to trigger action: <status>` code is in `[500,600)`.
Consequently, for every `maxRetries > 0`, a trigger call failing with a
status in `[400,500)` whose message does not contain `fetch` produces
exactly 1 attempt and propagates the formatted failure, while a call
failing with 5xx statuses `k ≤ maxRetries` times before succeeding is
retried until it succeeds, in exactly `k + 1` attempts. -/
theorem trigger_retryability :
    (∀ msg : String, shouldRetry (.mk msg) = true ↔
      hasInfix fetchPattern msg.data = true ∨
        ∃ n, scanStatus msg.data = some n ∧ 500 ≤ n ∧ n < 600) ∧
    (∀ (venv : Nat → VersionAttempt) (s : Nat) (body : String) (m : Nat)
        (sse : ConnectInput) (parse : String → Option JsonEvent),
      400 ≤ s → s < 500 → 0 < m →
      hasInfix fetchPattern (triggerMsg s body).data = false →
      (run ⟨venv, fun _ => ⟨false, s, body, none⟩, m, sse, parse⟩).triggerCalls
          = 1 ∧
      (run ⟨venv, fun _ => ⟨false, s, body, none⟩, m, sse, parse⟩).failures =
        [triggerMsg s body]) ∧
    (∀ (venv : Nat → VersionAttempt) (stc : Nat → Nat) (bd : Nat → String)
        (k m : Nat) (rid : String) (sse : ConnectInput)
        (parse : String → Option JsonEvent),
      0 < m → k ≤ m → (∀ i, 500 ≤ stc i ∧ stc i < 600) →
      (runTrigger ⟨venv, fun i => if i < k then ⟨false, stc i, bd i, none⟩
          else ⟨true, 200, "", some rid⟩, m, sse, parse⟩).result =
        .ok (some rid) ∧
      (run ⟨venv, fun i => if i < k then ⟨false, stc i, bd i, none⟩
          else ⟨true, 200, "", some rid⟩, m, sse, parse⟩).triggerCalls =
        k + 1) := by
  refine ⟨shouldRetry_true_iff, ?_, ?_⟩
  · intro venv s body m sse parse h4 h5 hm hf
    have htrig : triggerAction (⟨false, s, body, none⟩ : TriggerResponse) =
        .error (.mk (triggerMsg s body)) := rfl
    have hsr : shouldRetry (.mk (triggerMsg s body)) = false := by
      rw [shouldRetry_triggerMsg s body hf]
      simp only [decide_eq_false_iff_not, not_and, not_lt]
      omega
    have htr : runTrigger ⟨venv, fun _ => ⟨false, s, body, none⟩, m, sse, parse⟩ =
        ⟨.error (.mk (triggerMsg s body)), 1, []⟩ :=
      runTrigger_stop _ _ hm htrig hsr
    constructor
    · rw [run_triggerCalls, htr]
    · rw [run_of_trigger_error _ _ (by rw [htr])]
      rfl
  · intro venv stc bd k m rid sse parse hm hkm h5
    have hok := retryAux_ok_at
      (fun i => triggerAction (if i < k then ⟨false, stc i, bd i, none⟩
        else ⟨true, 200, "", some rid⟩))
      shouldRetry k m 0 (some rid) hkm
      (fun i hi => by
        refine ⟨.mk (triggerMsg (stc i) (bd i)), ?_, ?_⟩
        · simp only [Nat.zero_add, hi, if_pos]
          rfl
        · exact shouldRetry_triggerMsg_5xx _ _ (h5 i))
      (by simp only [Nat.zero_add, lt_irrefl, if_neg, not_false_iff]; rfl)
    have htr : runTrigger ⟨venv, fun i => if i < k then ⟨false, stc i, bd i, none⟩
        else ⟨true, 200, "", some rid⟩, m, sse, parse⟩ =
        retryAux (fun i => triggerAction (if i < k then ⟨false, stc i, bd i, none⟩
          else ⟨true, 200, "", some rid⟩)) shouldRetry 0 m := by
      unfold runTrigger
      rw [if_pos hm]
      rfl
    refine ⟨?_, ?_⟩
    · rw [htr]
      exact hok.1
    · rw [run_triggerCalls, htr]
      exact hok.2

/-- Witness for C3 as amended: a 401 with body `Unauthorized` (no `fetch`
substring) makes exactly one attempt with `maxRetries = 2` and fails with
the formatted message; a trigger failing twice with 503 then succeeding
under `maxRetries = 2` takes exactly 3 attempts and succeeds. -/
theorem trigger_retryability_witness :
    ((run ⟨venvOk, fun _ => ⟨false, 401, "Unauthorized", none⟩, 2, sseEmpty,
      parseDemo⟩).triggerCalls = 1 ∧
     (run ⟨venvOk, fun _ => ⟨false, 401, "Unauthorized", none⟩, 2, sseEmpty,
      parseDemo⟩).failures = [triggerMsg 401 "Unauthorized"]) ∧
    ((runTrigger ⟨venvOk, fun i => if i < 2 then ⟨false, 503, "Service Unavailable", none⟩
        else ⟨true, 200, "", some "r-1"⟩, 2, sseEmpty, parseDemo⟩).result =
      .ok (some "r-1") ∧
     (run ⟨venvOk, fun i => if i < 2 then ⟨false, 503, "Service Unavailable", none⟩
        else ⟨true, 200, "", some "r-1"⟩, 2, sseEmpty, parseDemo⟩).triggerCalls =
      2 + 1) := by
  constructor
  · exact trigger_retryability.2.1 venvOk 401 "Unauthorized" 2 sseEmpty parseDemo
      (by omega) (by omega) (by omega) (by decide)
  · exact trigger_retryability.2.2 venvOk (fun _ => 503)
      (fun _ => "Service Unavailable") 2 2 "r-1" sseEmpty parseDemo
      (by omega) (by omega)
      (fun i => by show (500 : Nat) ≤ 503 ∧ (503 : Nat) < 600; omega)

/-- C4: a non-2xx trigger response fails with exactly the message
`Failed to trigger action: <status> <body>`; a 2xx response whose parsed
`run_id` is absent or empty makes the run fail with the distinct
no-run-ID error after a single trigger attempt — this post-success failure
is raised outside the retry wrapper and is never retried, for every
`maxRetries` — and the streaming phase never starts. -/
theorem trigger_failure_modes :
    (∀ resp : TriggerResponse, resp.ok = false →
      triggerAction resp = .error (.mk ("Failed to trigger action: " ++
        toString resp.status ++ " " ++ resp.bodyText))) ∧
    (∀ (venv : Nat → VersionAttempt) (m : Nat) (sse : ConnectInput)
        (parse : String → Option JsonEvent) (rid : Option String),
      strIsEmpty (rid.getD "") = true →
      (run ⟨venv, fun _ => ⟨true, 200, "", rid⟩, m, sse, parse⟩).failures =
        ["No run ID received from the trigger endpoint"] ∧
      (run ⟨venv, fun _ => ⟨true, 200, "", rid⟩, m, sse, parse⟩).triggerCalls = 1 ∧
      (run ⟨venv, fun _ => ⟨true, 200, "", rid⟩, m, sse, parse⟩).sseStarted
        = false) := by
  constructor
  · intro resp hok
    unfold triggerAction triggerMsg
    rw [hok]
    rfl
  · intro venv m sse parse rid hrid
    have htr : runTrigger ⟨venv, fun _ => ⟨true, 200, "", rid⟩, m, sse, parse⟩ =
        ⟨.ok rid, 1, []⟩ := runTrigger_first_ok _ rid rfl
    rw [run_of_empty_rid _ rid (by rw [htr]) hrid]
    exact ⟨rfl, by rw [htr], rfl⟩

/-- Witness for C4: a concrete 401 response produces exactly the formatted
message, and a 2xx response with an empty `run_id` fails with the
no-run-ID error after one attempt even with `maxRetries = 2`. -/
theorem trigger_failure_modes_witness :
    triggerAction ⟨false, 401, "Unauthorized", none⟩ =
      .error (.mk "Failed to trigger action: 401 Unauthorized") ∧
    (run ⟨venvOk, fun _ => ⟨true, 200, "", some ""⟩, 2, sseEmpty,
      parseDemo⟩).failures = ["No run ID received from the trigger endpoint"] ∧
    (run ⟨venvOk, fun _ => ⟨true, 200, "", some ""⟩, 2, sseEmpty,
      parseDemo⟩).triggerCalls = 1 := by
  refine ⟨?_, ?_, ?_⟩
  · rw [trigger_failure_modes.1 ⟨false, 401, "Unauthorized", none⟩ rfl]
    rfl
  · exact (trigger_failure_modes.2 venvOk 2 sseEmpty parseDemo (some "")
      (by decide)).1
  · exact (trigger_failure_modes.2 venvOk 2 sseEmpty parseDemo (some "")
      (by decide)).2.1

/-! ## C8 — the Version Probe -/

theorem retryAux_retries_ge_two {ε τ : Type} (fn : Nat → Except ε τ)
    (p : ε → Bool) (r : Nat) {e : ε} (h : fn 0 = .error e) (hp : p e = true) :
    2 ≤ (retryAux fn p 0 (r + 1)).attemptsMade := by
  rw [retryAux_err_retry fn p 0 r h hp]
  have := retryAux_attempts_pos fn p r (0 + 1)
  dsimp only
  omega

/-- C8: the version probe uses `GET` and no headers; it is the retrier
around `fetchVersion` with a budget of 3 retries and an always-true
predicate; a non-ok response is a failure like any other (hence retried: a
first-attempt failure of any kind forces at least a second call); when all
4 attempts fail, the `version` output is not produced, a warning carrying
the last failure's message is logged, exactly 4 calls were made, and the
run still proceeds to the trigger call (the probe is never fatal); when an
attempt succeeds, its value is reported as the `version` output, and a
response without a `version` field reports `unknown`. -/
theorem version_probe_spec (env : RunEnv) :
    versionRequestMethod = "GET" ∧
    versionRequestHeaders = [] ∧
    runVersion env = retryWithBackoff
      (fun i => fetchVersion (env.versionAttempts i)) 3 (fun _ => true) ∧
    (∀ s v, fetchVersion (.resp false s v) =
      .error (.mk ("Version endpoint returned " ++ toString s))) ∧
    (∀ s, fetchVersion (.resp true s none) = .ok "unknown") ∧
    (∀ e, fetchVersion (env.versionAttempts 0) = .error e →
      2 ≤ (run env).versionCalls) ∧
    (∀ em : Nat → String,
      (∀ i, i ≤ 3 → fetchVersion (env.versionAttempts i) = .error (.mk (em i))) →
      (run env).versionOutput = none ∧
      ("Failed to fetch version after retries: " ++ em 3) ∈ (run env).warnings ∧
      (run env).versionCalls = 4 ∧
      1 ≤ (run env).triggerCalls) ∧
    (∀ (v : String) (k : Nat), k ≤ 3 →
      (∀ i, i < k → ∃ e, fetchVersion (env.versionAttempts i) = .error e) →
      fetchVersion (env.versionAttempts k) = .ok v →
      (run env).versionOutput = some v) := by
  refine ⟨rfl, rfl, rfl, fun s v => rfl, fun s => rfl, ?_, ?_, ?_⟩
  · intro e he
    rw [run_versionCalls]
    exact retryAux_retries_ge_two _ (fun _ => true) 2 he rfl
  · intro em hall
    have hres := retryAux_all_fail
      (fun i => fetchVersion (env.versionAttempts i)) (fun _ => true)
      (fun i => JsError.mk (em i)) 3 0
      (fun i hi => by simpa using hall i hi)
      (fun i _ => rfl)
    simp only [Nat.zero_add] at hres
    refine ⟨?_, ?_, ?_, ?_⟩
    · rw [run_versionOutput]
      show versionOutputOf (retryAux _ _ 0 3).result = none
      rw [hres.1]
      rfl
    · refine run_warnings_mem env _ ?_
      show _ ∈ versionWarningsOf (retryAux _ _ 0 3).result
      rw [hres.1]
      simp [versionWarningsOf]
    · rw [run_versionCalls]
      exact hres.2
    · rw [run_triggerCalls]
      exact runTrigger_attempts_pos env
  · intro v k hk3 hfail hok
    have hres := retryAux_ok_at
      (fun i => fetchVersion (env.versionAttempts i)) (fun _ => true)
      k 3 0 v hk3
      (fun i hi => by
        obtain ⟨e, he⟩ := hfail i hi
        exact ⟨e, by simpa using he, rfl⟩)
      (by simpa using hok)
    rw [run_versionOutput]
    show versionOutputOf (retryAux _ _ 0 3).result = some v
    rw [hres.1]
    rfl

/-- Witness for C8: with a version endpoint that always rejects, the probe
makes exactly 4 calls, produces no `version` output, logs the warning with
the last failure's message, and the trigger call still proceeds. -/
theorem version_probe_spec_witness :
    (run ⟨venvFail, fun _ => ⟨true, 200, "", some "r-1"⟩, 0, sseEmpty,
      parseDemo⟩).versionOutput = none ∧
    "Failed to fetch version after retries: boom 3" ∈
      (run ⟨venvFail, fun _ => ⟨true, 200, "", some "r-1"⟩, 0, sseEmpty,
        parseDemo⟩).warnings ∧
    (run ⟨venvFail, fun _ => ⟨true, 200, "", some "r-1"⟩, 0, sseEmpty,
      parseDemo⟩).versionCalls = 4 ∧
    1 ≤ (run ⟨venvFail, fun _ => ⟨true, 200, "", some "r-1"⟩, 0, sseEmpty,
      parseDemo⟩).triggerCalls := by
  exact (version_probe_spec ⟨venvFail, fun _ => ⟨true, 200, "", some "r-1"⟩, 0,
    sseEmpty, parseDemo⟩).2.2.2.2.2.2.1
    (fun i => "boom " ++ toString i) (fun i _ => rfl)

end DesplegaAction
